import Mathlib

/-!
Verification development for the Smart Home Voice Control engine
(`frontend/script.js`): the intent parser, room normalizer, device state
store, scene executor, timer manager and the orchestrating
`processCommand`, shallowly embedded as executable Lean definitions.

JS strings are modelled as `List Char`; JS regular expressions with the
small `Re` datatype and a backtracking matcher that replicates the JS
preference order (leftmost start position, left alternative first,
greedy quantifiers).
-/

namespace VoiceDetect

/-- Character class of JS `\s` (the whitespace characters that matter
for the ASCII command strings this program handles). -/
def isSpaceJS (c : Char) : Bool :=
  c == ' ' || c == '\t' || c == '\n' || c == '\r'

/-- Model of JS `String.prototype.toLowerCase` on the ASCII commands. -/
def lowerL (l : List Char) : List Char := l.map Char.toLower

/-- Model of JS `String.prototype.trim`. -/
def trimL (l : List Char) : List Char :=
  ((l.dropWhile isSpaceJS).reverse.dropWhile isSpaceJS).reverse

/-- Does `needle` occur as a contiguous run inside `hay`?  Model of JS
`String.prototype.includes`. -/
def hasInfix (needle : List Char) : List Char → Bool
  | [] => needle.isEmpty
  | c :: rest => needle.isPrefixOf (c :: rest) || hasInfix needle rest

/-- JS `command.includes(needle)` on `String`s. -/
def includesJS (hay needle : String) : Bool :=
  hasInfix needle.toList hay.toList

/-- JS `parseInt` on a capture that the regex guarantees to be `\d+`. -/
def natOfDigits (l : List Char) : Nat :=
  l.foldl (fun n c => n * 10 + (c.toNat - '0'.toNat)) 0

/-- Pack a list of characters back into a `String`. -/
def strOfL (l : List Char) : String := ⟨l⟩

/-! ## A small regex engine

Only the constructs appearing in `script.js`'s patterns: literals,
character classes, concatenation, alternation, greedy `?`, greedy `+`
over a character class, and numbered capture groups.  `\s*` is encoded
as `(\s+)?`, `.` as the any-but-newline class. -/

/-- Regular expressions as used by the parser's patterns. -/
inductive Re where
  | eps : Re
  | cls (p : Char → Bool) : Re
  | lit (s : List Char) : Re
  | cat (a b : Re) : Re
  | alt (a b : Re) : Re
  | opt (a : Re) : Re
  | plus (p : Char → Bool) : Re
  | grp (n : Nat) (a : Re) : Re

/-- Capture environment: group number to captured characters.  A fresh
binding is consed on, so `lookup` returns the most recent capture, and
bindings made on abandoned backtracking paths are discarded because the
matcher threads the environment through its continuation. -/
abbrev Caps := List (Nat × List Char)

/-- Record a capture for group `n`. -/
def setCap (c : Caps) (n : Nat) (v : List Char) : Caps := (n, v) :: c

/-- Look up the capture of group `n` (JS `matches[n]`, `none` playing
the role of `undefined`). -/
def getCap (c : Caps) (n : Nat) : Option (List Char) :=
  List.lookup n c

/-- Greedy `+` over a character class: try consuming `i` characters for
`i` from the longest possible run down to 1, resuming the continuation
`k` on the rest. -/
def plusTryFrom (k : List Char → Caps → Option Caps) (s : List Char) (c : Caps) :
    Nat → Option Caps
  | 0 => none
  | i + 1 =>
    match k (s.drop (i + 1)) c with
    | some r => some r
    | none => plusTryFrom k s c i

/-- Backtracking matcher in continuation-passing style.  `mre r s c k`
matches `r` against a prefix of `s` under captures `c`, passing the
rest and the extended captures to `k`; alternatives are tried left
first and quantifiers greedily, which is the JS preference order. -/
def mre : Re → List Char → Caps → (List Char → Caps → Option Caps) → Option Caps
  | .eps, s, c, k => k s c
  | .cls p, s, c, k =>
    match s with
    | [] => none
    | ch :: rest => if p ch then k rest c else none
  | .lit l, s, c, k =>
    if l.isPrefixOf s then k (s.drop l.length) c else none
  | .cat a b, s, c, k => mre a s c (fun s' c' => mre b s' c' k)
  | .alt a b, s, c, k =>
    match mre a s c k with
    | some r => some r
    | none => mre b s c k
  | .opt a, s, c, k =>
    match mre a s c k with
    | some r => some r
    | none => k s c
  | .plus p, s, c, k => plusTryFrom k s c (s.takeWhile p).length
  | .grp n a, s, c, k =>
    mre a s c (fun s' c' => k s' (setCap c' n (s.take (s.length - s'.length))))

/-- Unanchored search, as JS `string.match(re)`: try every start
position from the left and return the captures of the first position
where the pattern matches. -/
def reSearch (r : Re) : List Char → Option Caps
  | [] => mre r [] [] (fun _ c => some c)
  | ch :: t =>
    match mre r (ch :: t) [] (fun _ c => some c) with
    | some c => some c
    | none => reSearch r t

/-- Shorthand: one or more whitespace characters (`\s+`). -/
def spRe : Re := .plus isSpaceJS

/-- Shorthand: `.` — any character other than a line terminator. -/
def dotCls (c : Char) : Bool := c != '\n' && c != '\r'

/-- Shorthand: `\d`. -/
def digitCls (c : Char) : Bool := c.isDigit

/-- Literal regex from a string. -/
def litS (s : String) : Re := .lit s.toList

/-! ## Room Normalizer (`normalizeRoom`) -/

/-- The static alias table `roomMap`, in the source's declaration
order; JS object property insertion order, which `Object.entries`
reproduces, is exactly this order. -/
def roomMap : List (List Char × String) :=
  [("living room".toList, "living-room"),
   ("livingroom".toList, "living-room"),
   ("living".toList, "living-room"),
   ("lounge".toList, "living-room"),
   ("front room".toList, "living-room"),
   ("main room".toList, "living-room"),
   ("living roo".toList, "living-room"),
   ("living ro".toList, "living-room"),
   ("livin".toList, "living-room"),
   ("liv".toList, "living-room"),
   ("bedroom".toList, "bedroom"),
   ("bed room".toList, "bedroom"),
   ("master bedroom".toList, "bedroom"),
   ("master".toList, "bedroom"),
   ("sleeping room".toList, "bedroom"),
   ("bed".toList, "bedroom"),
   ("kitchen".toList, "kitchen"),
   ("cooking area".toList, "kitchen"),
   ("dining room".toList, "kitchen"),
   ("kitch".toList, "kitchen")]

/-- The partial-match scan of `normalizeRoom`: the first table entry
whose key starts with the input or of which the input is an extension
(JS `key.startsWith(normalized) || normalized.startsWith(key)`). -/
def findRelated (normalized : List Char) : Option (List Char × String) :=
  roomMap.find? (fun e => normalized.isPrefixOf e.1 || e.1.isPrefixOf normalized)

/-- The JS value of a room read: room ids are strings, but a JS object
read of an absent key falls back to the prototype chain, and for the
two all-lower-case inherited property names it yields a truthy
non-string object — the `Object` constructor for `constructor` and
`Object.prototype` for `__proto__` — carried here with the string JS
coerces it to when it is later used as a property key or in a template
literal. -/
inductive RoomVal where
  | str (s : String) : RoomVal
  | obj (tag : String) : RoomVal
deriving DecidableEq

/-- The string JS coerces a room value to (`ToPropertyKey` / template
literal). -/
def roomKey : RoomVal → String
  | .str s => s
  | .obj tag => tag

/-- The prototype-chain fallback of a JS object read on an object
literal: among `Object.prototype`'s property names, only `constructor`
and `__proto__` are all lower-case, so only they can be hit by a
trimmed, lower-cased room name; the read yields the `Object`
constructor resp. `Object.prototype`, tagged by its string coercion.
Every other absent key reads as `undefined`. -/
def protoRead (k : String) : Option String :=
  if k = "constructor" then some "function Object() \x7b [native code] \x7d"
  else if k = "__proto__" then some "[object Object]"
  else none

/-- Own property names (ECMA-262, ES2020) of the two objects the
prototype chain can yield: the `Object` constructor (read at key
`constructor`) and `Object.prototype` (at `__proto__`).  The
`hasOwnProperty` test of `executeCommand` consults these when the room
read fell through to the prototype; the claims only rely on the four
device kinds being own properties of neither object, which holds in
every engine. -/
def inheritedOwnProps (room : String) : List String :=
  if room = "constructor" then
    ["length", "name", "prototype", "assign", "create", "defineProperties",
     "defineProperty", "entries", "freeze", "fromEntries",
     "getOwnPropertyDescriptor", "getOwnPropertyDescriptors",
     "getOwnPropertyNames", "getOwnPropertySymbols", "getPrototypeOf",
     "is", "isExtensible", "isFrozen", "isSealed", "keys",
     "preventExtensions", "seal", "setPrototypeOf", "values"]
  else
    ["constructor", "hasOwnProperty", "isPrototypeOf",
     "propertyIsEnumerable", "toLocaleString", "toString", "valueOf",
     "__defineGetter__", "__defineSetter__", "__lookupGetter__",
     "__lookupSetter__", "__proto__"]

/-- Core of `normalizeRoom` on the trimmed, lower-cased input: the JS
object read `roomMap[normalized]` yields the own entry if present,
else the inherited `constructor`/`__proto__` value — truthy, so the
scan and the `|| fallback` are skipped and the non-room object is
returned as-is — else `undefined`, after which the partial-match scan
and then the `living-room` default apply (table values are non-empty
strings, hence truthy). -/
def normCore (normalized : List Char) : RoomVal :=
  match List.lookup normalized roomMap with
  | some v => .str v
  | none =>
    match protoRead (strOfL normalized) with
    | some tag => .obj tag
    | none =>
      match findRelated normalized with
      | some e => .str e.2
      | none => .str "living-room"

/-- `normalizeRoom(roomName)`: the empty string is falsy in JS and
short-circuits to the default room; otherwise the input is trimmed and
lower-cased and resolved through `normCore`. -/
def normalizeRoom (roomName : List Char) : RoomVal :=
  if roomName.isEmpty then .str "living-room"
  else normCore (trimL (lowerL roomName))

/-- `normalizeRoom` on a `String` argument. -/
def normalizeRoomS (roomName : String) : RoomVal := normalizeRoom roomName.toList

/-! ## Intents and the Intent Parser (`parseCommand`) -/

/-- A JS device value: a number or a string, as stored in
`this.devices[room][device]`. -/
inductive Value where
  | num (n : Int) : Value
  | str (s : String) : Value
deriving DecidableEq

/-- The intent shape built by the device-pattern rules; the room field
holds whatever `normalizeRoom` returned (a string, or — for a
prototype-named room phrase — the inherited object). -/
structure DeviceCmd where
  device : String
  room : RoomVal
  action : String
  value : Value
deriving DecidableEq

/-- The intent shape built by the timer rule. -/
structure TimerCmd where
  device : String
  room : RoomVal
  action : String
  duration : Nat
  unit : String
deriving DecidableEq

/-- Parsed intents (`{type: 'help'|'scene'|'timer'|'settings'}` and the
device-command objects). -/
inductive Intent where
  | help : Intent
  | scene (name : String) : Intent
  | timer (t : TimerCmd) : Intent
  | settings (action : String) : Intent
  | device (c : DeviceCmd) : Intent
deriving DecidableEq

/-- The room-phrase alternative `living\s+room|bedroom|kitchen|living|master`
used by the specific lights patterns. -/
def roomAltRe : Re :=
  .alt (.cat (litS "living") (.cat spRe (litS "room")))
    (.alt (litS "bedroom") (.alt (litS "kitchen") (.alt (litS "living") (litS "master"))))

/-- `(?:\s+in\s+(?:the\s+)?(<inner>))?` — the optional trailing room
phrase shared by several patterns, capturing into group `n`. -/
def inRoomOptRe (n : Nat) (inner : Re) : Re :=
  .opt (.cat spRe (.cat (litS "in") (.cat spRe
    (.cat (.opt (.cat (litS "the") spRe)) (.grp n inner)))))

/-- Timer rule regex
`/(turn off|stop) (.+) in (\d+) (minutes?|mins?|hours?|hrs?)/i`. -/
def timerRe : Re :=
  .cat (.grp 1 (.alt (litS "turn off") (litS "stop")))
    (.cat (litS " ")
      (.cat (.grp 2 (.plus dotCls))
        (.cat (litS " in ")
          (.cat (.grp 3 (.plus digitCls))
            (.cat (litS " ")
              (.grp 4 (.alt (.cat (litS "minute") (.opt (litS "s")))
                (.alt (.cat (litS "min") (.opt (litS "s")))
                  (.alt (.cat (litS "hour") (.opt (litS "s")))
                    (.cat (litS "hr") (.opt (litS "s"))))))))))))

/-- Pattern 1: `/turn\s+(on|off)\s+(?:the\s+)?(living\s+room|bedroom|kitchen|living|master)\s+lights?/`. -/
def lightsRe1 : Re :=
  .cat (litS "turn") (.cat spRe
    (.cat (.grp 1 (.alt (litS "on") (litS "off"))) (.cat spRe
      (.cat (.opt (.cat (litS "the") spRe))
        (.cat (.grp 2 roomAltRe) (.cat spRe (.cat (litS "light") (.opt (litS "s")))))))))

/-- Pattern 2: `/(living\s+room|bedroom|kitchen|living|master)\s+lights?\s+(on|off)/`. -/
def lightsRe2 : Re :=
  .cat (.grp 1 roomAltRe) (.cat spRe
    (.cat (litS "light") (.cat (.opt (litS "s")) (.cat spRe
      (.grp 2 (.alt (litS "on") (litS "off")))))))

/-- Pattern 3: `/(?:turn\s+)?(on|off)\s+(?:the\s+)?lights?(?:\s+in\s+(?:the\s+)?(living\s+room|bedroom|kitchen|living|master))?/`. -/
def lightsRe3 : Re :=
  .cat (.opt (.cat (litS "turn") spRe))
    (.cat (.grp 1 (.alt (litS "on") (litS "off"))) (.cat spRe
      (.cat (.opt (.cat (litS "the") spRe))
        (.cat (litS "light") (.cat (.opt (litS "s")) (inRoomOptRe 2 roomAltRe))))))

/-- Pattern 4: `/lights?\s+(on|off)(?:\s+in\s+(?:the\s+)?(.+))?/`. -/
def lightsRe4 : Re :=
  .cat (litS "light") (.cat (.opt (litS "s")) (.cat spRe
    (.cat (.grp 1 (.alt (litS "on") (litS "off"))) (inRoomOptRe 2 (.plus dotCls)))))

/-- Pattern 5: `/dim\s+(?:the\s+)?(?:(.+)\s+)?lights?\s+to\s+(\d+)(?:\s*percent|%)?/`. -/
def dimRe : Re :=
  .cat (litS "dim") (.cat spRe
    (.cat (.opt (.cat (litS "the") spRe))
      (.cat (.opt (.cat (.grp 1 (.plus dotCls)) spRe))
        (.cat (litS "light") (.cat (.opt (litS "s")) (.cat spRe
          (.cat (litS "to") (.cat spRe
            (.cat (.grp 2 (.plus digitCls))
              (.opt (.alt (.cat (.opt spRe) (litS "percent")) (litS "%"))))))))))))

/-- Pattern 6: `/set\s+(?:the\s+)?temperature\s+to\s+(\d+)(?:\s+(?:degrees?|¬∞f?))?(?:\s+in\s+(?:the\s+)?(.+))?/`. -/
def thermoRe1 : Re :=
  .cat (litS "set") (.cat spRe
    (.cat (.opt (.cat (litS "the") spRe))
      (.cat (litS "temperature") (.cat spRe (.cat (litS "to") (.cat spRe
        (.cat (.grp 1 (.plus digitCls))
          (.cat (.opt (.cat spRe (.alt (.cat (litS "degree") (.opt (litS "s")))
            (.cat (litS "¬∞") (.opt (litS "f"))))))
            (inRoomOptRe 2 (.plus dotCls))))))))))

/-- Pattern 7: `/set\s+(?:the\s+)?(.+)\s+temperature\s+to\s+(\d+)(?:\s+(?:degrees?|¬∞f?))?/`. -/
def thermoRe2 : Re :=
  .cat (litS "set") (.cat spRe
    (.cat (.opt (.cat (litS "the") spRe))
      (.cat (.grp 1 (.plus dotCls)) (.cat spRe
        (.cat (litS "temperature") (.cat spRe (.cat (litS "to") (.cat spRe
          (.cat (.grp 2 (.plus digitCls))
            (.opt (.cat spRe (.alt (.cat (litS "degree") (.opt (litS "s")))
              (.cat (litS "¬∞") (.opt (litS "f")))))))))))))))

/-- Pattern 8: `/(play|stop|pause)\s+(?:the\s+)?music(?:\s+in\s+(?:the\s+)?(.+))?/`. -/
def musicRe1 : Re :=
  .cat (.grp 1 (.alt (litS "play") (.alt (litS "stop") (litS "pause"))))
    (.cat spRe (.cat (.opt (.cat (litS "the") spRe))
      (.cat (litS "music") (inRoomOptRe 2 (.plus dotCls)))))

/-- Pattern 9: `/music\s+(on|off|play|stop|pause)(?:\s+in\s+(?:the\s+)?(.+))?/`. -/
def musicRe2 : Re :=
  .cat (litS "music") (.cat spRe
    (.cat (.grp 1 (.alt (litS "on") (.alt (litS "off")
        (.alt (litS "play") (.alt (litS "stop") (litS "pause"))))))
      (inRoomOptRe 2 (.plus dotCls))))

/-- Pattern 10: `/(arm|disarm)\s+(?:the\s+)?security(?:\s+system)?/`. -/
def securityRe : Re :=
  .cat (.grp 1 (.alt (litS "arm") (litS "disarm")))
    (.cat spRe (.cat (.opt (.cat (litS "the") spRe))
      (.cat (litS "security") (.opt (.cat spRe (litS "system"))))))

/-- A capture read with JS falsy semantics for a group that, when it
participates, is non-empty (all capturing groups in the patterns match
at least one character). -/
def capL (c : Caps) (n : Nat) : List Char := (getCap c n).getD []

/-- Builder of pattern 1 (specific `turn on/off <room> lights`). -/
def mkLights1 (m : Caps) : Intent :=
  .device { device := "lights", room := normalizeRoom (capL m 2),
            action := strOfL (capL m 1),
            value := .num (if capL m 1 == "on".toList then 100 else 0) }

/-- Builder of pattern 2 (`<room> lights on/off`). -/
def mkLights2 (m : Caps) : Intent :=
  .device { device := "lights", room := normalizeRoom (capL m 1),
            action := strOfL (capL m 2),
            value := .num (if capL m 2 == "on".toList then 100 else 0) }

/-- Builder of patterns 3 and 4 (generic lights on/off, room optional
and defaulting to `living-room`). -/
def mkLightsGen (m : Caps) : Intent :=
  .device { device := "lights",
            room := match getCap m 2 with
                    | some r => normalizeRoom r
                    | none => .str "living-room",
            action := strOfL (capL m 1),
            value := .num (if capL m 1 == "on".toList then 100 else 0) }

/-- Builder of pattern 5 (`dim ... lights to N`), clamping the value to
`[0, 100]` via `Math.min(100, Math.max(0, parseInt(...)))`. -/
def mkDim (m : Caps) : Intent :=
  .device { device := "lights",
            room := match getCap m 1 with
                    | some r => normalizeRoom r
                    | none => .str "living-room",
            action := "dim",
            value := .num (min 100 (max 0 (natOfDigits (capL m 2) : Int))) }

/-- Builder of pattern 6 (`set temperature to N [in room]`). -/
def mkThermo1 (m : Caps) : Intent :=
  .device { device := "thermostat",
            room := match getCap m 2 with
                    | some r => normalizeRoom r
                    | none => .str "living-room",
            action := "set", value := .num (natOfDigits (capL m 1)) }

/-- Builder of pattern 7 (`set <room> temperature to N`). -/
def mkThermo2 (m : Caps) : Intent :=
  .device { device := "thermostat", room := normalizeRoom (capL m 1),
            action := "set", value := .num (natOfDigits (capL m 2)) }

/-- Builder of pattern 8 (`play/stop/pause music [in room]`). -/
def mkMusic1 (m : Caps) : Intent :=
  .device { device := "music",
            room := match getCap m 2 with
                    | some r => normalizeRoom r
                    | none => .str "living-room",
            action := strOfL (capL m 1),
            value := if capL m 1 == "play".toList then .str "playing"
                     else if capL m 1 == "stop".toList then .str "stopped"
                     else .str "paused" }

/-- Builder of pattern 9 (`music on/off/play/stop/pause [in room]`),
first canonicalising `on`/`off` to `play`/`stop`. -/
def mkMusic2 (m : Caps) : Intent :=
  .device { device := "music",
            room := match getCap m 2 with
                    | some r => normalizeRoom r
                    | none => .str "living-room",
            action := if capL m 1 == "on".toList then "play"
                      else if capL m 1 == "off".toList then "stop"
                      else strOfL (capL m 1),
            value := if (if capL m 1 == "on".toList then "play"
                         else if capL m 1 == "off".toList then "stop"
                         else strOfL (capL m 1)) == "play" then .str "playing"
                     else if (if capL m 1 == "on".toList then "play"
                              else if capL m 1 == "off".toList then "stop"
                              else strOfL (capL m 1)) == "stop" then .str "stopped"
                     else .str "paused" }

/-- Builder of pattern 10 (`arm/disarm security`): the room is always
`kitchen`. -/
def mkSecurity (m : Caps) : Intent :=
  .device { device := "security", room := .str "kitchen",
            action := strOfL (capL m 1),
            value := if capL m 1 == "arm".toList then .str "armed"
                     else .str "disarmed" }

/-- The ordered device-pattern table of `parseCommand`. -/
def patterns : List (Re × (Caps → Intent)) :=
  [(lightsRe1, mkLights1), (lightsRe2, mkLights2), (lightsRe3, mkLightsGen),
   (lightsRe4, mkLightsGen), (dimRe, mkDim), (thermoRe1, mkThermo1),
   (thermoRe2, mkThermo2), (musicRe1, mkMusic1), (musicRe2, mkMusic2),
   (securityRe, mkSecurity)]

/-- The `for (const pattern of patterns)` loop: first pattern whose
regex matches wins. -/
def runPatterns : List (Re × (Caps → Intent)) → List Char → Option Intent
  | [], _ => none
  | (r, b) :: rest, s =>
    match reSearch r s with
    | some m => some (b m)
    | none => runPatterns rest s

/-- Intent built from a timer-rule match: device hard-wired to
`lights`, action hard-wired to `turn off`, room through the normalizer,
duration via `parseInt`, unit lower-cased. -/
def mkTimerIntent (m : Caps) : Intent :=
  .timer { device := "lights", room := normalizeRoom (capL m 2),
           action := "turn off", duration := natOfDigits (capL m 3),
           unit := strOfL (lowerL (capL m 4)) }

/-- `parseCommand(command)`: the ordered rule chain — help keywords,
scene keywords, the timer regex, settings keywords, then the
device-pattern table.  The caller always hands it the lower-cased
utterance. -/
def parseCommand (command : String) : Option Intent :=
  if includesJS command "help" || includesJS command "what can you do"
      || includesJS command "commands" then some .help
  else if includesJS command "movie mode" || includesJS command "cinema mode" then
    some (.scene "movie")
  else if includesJS command "goodnight" || includesJS command "good night" then
    some (.scene "goodnight")
  else if includesJS command "wake up" || includesJS command "morning mode" then
    some (.scene "morning")
  else if includesJS command "party mode" || includesJS command "party time" then
    some (.scene "party")
  else
    match reSearch timerRe command.toList with
    | some m => some (mkTimerIntent m)
    | none =>
      if includesJS command "turn off voice" || includesJS command "disable voice" then
        some (.settings "disable_voice")
      else if includesJS command "turn on voice" || includesJS command "enable voice" then
        some (.settings "enable_voice")
      else if includesJS command "use whisper" || includesJS command "switch to whisper"
          || includesJS command "whisper backend" then some (.settings "use_whisper")
      else if includesJS command "use web speech" || includesJS command "switch to web speech"
          || includesJS command "browser speech" then some (.settings "use_webspeech")
      else runPatterns patterns command.toList

/-! ## Device State Store -/

/-- A room's devices: the JS object `this.devices[room]`, keys in
insertion order. -/
abbrev RoomDevs := List (String × Value)

/-- The whole store `this.devices`. -/
abbrev Store := List (String × RoomDevs)

/-- JS property assignment `obj[k] = v` on an object modelled as an
ordered association list: overwrite in place if present, append
otherwise. -/
def setKV {α : Type} (m : List (String × α)) (k : String) (v : α) :
    List (String × α) :=
  match m with
  | [] => [(k, v)]
  | (k', v') :: rest => if k' == k then (k, v) :: rest else (k', v') :: setKV rest k v

/-- `this.devices[room][device] = value` (a no-op on a room id absent
from the store; every caller in scope addresses a present room). -/
def setRoomDevice (st : Store) (room device : String) (v : Value) : Store :=
  st.map (fun e => if e.1 == room then (e.1, setKV e.2 device v) else e)

/-- Read a device's value, the store-level `get`. -/
def getRoomDevice (st : Store) (room device : String) : Option Value :=
  match List.lookup room st with
  | none => none
  | some rs => List.lookup device rs

/-- The `defaultStates` seed of `loadDeviceStates`. -/
def defaultStates : Store :=
  [("living-room", [("lights", .num 0), ("thermostat", .num 72), ("music", .str "stopped")]),
   ("bedroom", [("lights", .num 0), ("thermostat", .num 70), ("music", .str "stopped")]),
   ("kitchen", [("lights", .num 0), ("thermostat", .num 68), ("security", .str "disarmed")])]

/-- User-facing feedback emitted through the debug panel / speech
sink. -/
inductive Feedback where
  | lowConfidence : Feedback
  | unrecognized : Feedback
  | helpShown : Feedback
  | sceneActivated (name : String) : Feedback
  | unknownScene (name : String) : Feedback
  | timerSet (timerId : String) (delayMs : Nat) : Feedback
  | settingsChanged (action : String) : Feedback
  | roomNotFound (room : String) : Feedback
  | deviceNotFound (device room : String) : Feedback
  | deviceSet (c : DeviceCmd) : Feedback
  | errorThrown : Feedback
deriving DecidableEq

/-- Result of executing a device command: the store after the deferred
mutation has fired, the snapshots handed to `saveDeviceStates` (in call
order) and the emitted feedback. -/
structure ExecOut where
  store : Store
  saves : List Store
  feedback : Feedback
deriving DecidableEq

/-- The device-command tail of `executeCommand`.  The room check is the
JS truthiness test `!this.devices[room]`, an object read that falls
back to the prototype chain: an own entry passes to the
`hasOwnProperty` device check and (inside the 200–700 ms response-delay
callback) to the mutation immediately followed by `saveDeviceStates()`;
an absent but prototype-named room (`constructor`, `__proto__`) reads
as a truthy inherited object, so the room check passes and
`hasOwnProperty` is asked of that object — for a device it does not
own, the device-not-found branch is taken, and for one it does own,
the deferred assignment lands on the inherited object, leaving the
store unchanged, and the unchanged snapshot is persisted; only other
absent rooms reach the room-not-found branch.  A room value that is
itself the inherited object (a `normalizeRoom` prototype hit) coerces
to a key that is absent and not prototype-named, so the room check
fails, and the feedback path then calls `room.replace` on a non-string
and throws before speaking, mutating or persisting anything. -/
def executeCommand (st : Store) (c : DeviceCmd) : ExecOut :=
  match c.room with
  | .obj _ => ⟨st, [], .errorThrown⟩
  | .str room =>
    match List.lookup room st with
    | some rs =>
      if (List.lookup c.device rs).isSome then
        let st' := setRoomDevice st room c.device c.value
        ⟨st', [st'], .deviceSet c⟩
      else ⟨st, [], .deviceNotFound c.device room⟩
    | none =>
      match protoRead room with
      | some _ =>
        if (inheritedOwnProps room).contains c.device then ⟨st, [st], .deviceSet c⟩
        else ⟨st, [], .deviceNotFound c.device room⟩
      | none => ⟨st, [], .roomNotFound room⟩

/-! ## Scene Executor -/

/-- One `(room, device, value)` scene step. -/
structure SceneStep where
  room : String
  device : String
  value : Value
deriving DecidableEq

/-- The four built-in scenes of `loadScenes`, in declaration order. -/
def loadScenes : List (String × List SceneStep) :=
  [("movie",
    [⟨"living-room", "lights", .num 20⟩,
     ⟨"living-room", "music", .str "playing"⟩]),
   ("goodnight",
    [⟨"living-room", "lights", .num 0⟩,
     ⟨"bedroom", "lights", .num 0⟩,
     ⟨"kitchen", "lights", .num 0⟩,
     ⟨"kitchen", "security", .str "armed"⟩]),
   ("morning",
    [⟨"bedroom", "lights", .num 80⟩,
     ⟨"kitchen", "lights", .num 100⟩,
     ⟨"kitchen", "security", .str "disarmed"⟩]),
   ("party",
    [⟨"living-room", "lights", .num 100⟩,
     ⟨"bedroom", "lights", .num 75⟩,
     ⟨"kitchen", "lights", .num 100⟩,
     ⟨"living-room", "music", .str "playing"⟩])]

/-- Apply scene steps to the store in order (each step assigns
`this.devices[step.room][step.device] = step.value` directly, with no
existence validation). -/
def applySteps (st : Store) (steps : List SceneStep) : Store :=
  steps.foldl (fun s stp => setRoomDevice s stp.room stp.device stp.value) st

/-- Result of `executeScene`: whether the scene was known, the
scheduled step events as `(delay in ms, step)` pairs in scheduling
order, the snapshots handed to `saveDeviceStates`, the store after all
step callbacks have fired, and the delay of the final confirmation. -/
structure SceneOut where
  known : Bool
  stepEvents : List (Nat × SceneStep)
  saves : List Store
  finalStore : Store
  confirmDelay : Option Nat
deriving DecidableEq

/-- `executeScene(sceneName)`: unknown scene → feedback only; known
scene → each step is scheduled at `500 ms × index`, `saveDeviceStates()`
runs synchronously right after scheduling — before any step callback
has fired, hence with the pre-scene snapshot — and the confirmation is
scheduled at `500 ms × number of steps`. -/
def executeScene (st : Store) (sceneName : String) : SceneOut :=
  match List.lookup sceneName loadScenes with
  | none => ⟨false, [], [], st, none⟩
  | some steps =>
    ⟨true, steps.enum.map (fun e => (e.1 * 500, e.2)), [st],
     applySteps st steps, some (steps.length * 500)⟩

/-! ## Timer Manager -/

/-- An entry of the `activeTimers` registry. -/
structure TimerEntry where
  room : RoomVal
  device : String
  action : String
  endTime : Nat
  duration : Nat
  unit : String
deriving DecidableEq

/-- The active-timer registry (`Map` keyed by the generated id). -/
abbrev Timers := List (String × TimerEntry)

/-- Milliseconds of a timer: `duration * 60000` by default, replaced by
`duration * 3600000` when the unit string contains `hour`. -/
def timerMs (duration : Nat) (unit : String) : Nat :=
  if includesJS unit "hour" then duration * 3600000 else duration * 60000

/-- Result of `setTimer`: the computed firing delay, the generated
timer id, and the updated registry. -/
structure TimerOut where
  delayMs : Nat
  timerId : String
  timers : Timers
deriving DecidableEq

/-- `setTimer(command)`: compute the delay, build the
`room-device-timestamp` id, register the entry with its absolute end
time and classified unit, and schedule the firing callback. -/
def setTimer (now : Nat) (tms : Timers) (c : TimerCmd) : TimerOut :=
  let ms := timerMs c.duration c.unit
  let timerId := roomKey c.room ++ "-" ++ c.device ++ "-" ++ toString now
  let entry : TimerEntry :=
    ⟨c.room, c.device, c.action, now + ms, c.duration,
     if includesJS c.unit "hour" then "hour" else "minute"⟩
  ⟨ms, timerId, setKV tms timerId entry⟩

/-- Delete a key from the registry (`Map.delete`). -/
def removeKV (tms : Timers) (k : String) : Timers :=
  tms.filter (fun e => e.1 != k)

/-- The firing callback of `setTimer`: if the id is still registered,
set the device to `0` for a `turn off` action and to `stopped`
otherwise, persist, and deregister; a deregistered id fires to
nothing.  Returns the new store, the new registry, and the snapshots
handed to `saveDeviceStates`. -/
def fireTimer (st : Store) (tms : Timers) (timerId : String) :
    Store × Timers × List Store :=
  match List.lookup timerId tms with
  | none => (st, tms, [])
  | some t =>
    let v : Value := if t.action == "turn off" then .num 0 else .str "stopped"
    let st' := setRoomDevice st (roomKey t.room) t.device v
    (st', removeKV tms timerId, [st'])

/-! ## Orchestrator (`processCommand` and dispatch) -/

/-- The mutable application context: the device store, the active-timer
registry and the settings flags (`whisperAvailable` is written by the
external health check, never by the command path). -/
structure SysState where
  store : Store
  timers : Timers
  voiceResponseEnabled : Bool
  useWhisperBackend : Bool
  whisperAvailable : Bool
deriving DecidableEq

/-- `handleSettings(command)`: toggles the two flags; switching to the
Whisper backend requires its availability. -/
def handleSettings (σ : SysState) (a : String) : SysState :=
  if a == "disable_voice" then { σ with voiceResponseEnabled := false }
  else if a == "enable_voice" then { σ with voiceResponseEnabled := true }
  else if a == "use_whisper" then
    (if σ.whisperAvailable then { σ with useWhisperBackend := true } else σ)
  else if a == "use_webspeech" then { σ with useWhisperBackend := false }
  else σ

/-- Route a parsed intent, returning the context after all scheduled
callbacks of this command have fired, the persisted snapshots, and the
feedback. -/
def dispatch (σ : SysState) (i : Intent) (now : Nat) :
    SysState × List Store × Feedback :=
  match i with
  | .help => (σ, [], .helpShown)
  | .scene name =>
    let out := executeScene σ.store name
    ({ σ with store := out.finalStore }, out.saves,
     if out.known then .sceneActivated name else .unknownScene name)
  | .timer t =>
    let out := setTimer now σ.timers t
    ({ σ with timers := out.timers }, [], .timerSet out.timerId out.delayMs)
  | .settings a => (handleSettings σ a, [], .settingsChanged a)
  | .device c =>
    let out := executeCommand σ.store c
    ({ σ with store := out.store }, out.saves, out.feedback)

/-- The confidence threshold (`this.confidenceThreshold = 0.7`). -/
def confidenceThreshold : ℚ := 7 / 10

/-- `processCommand(command, confidence)`: reject when
`confidence < threshold && confidence < 1` before parsing; otherwise
lower-case, parse, and either report an unrecognized command or
dispatch the intent. -/
def processCommand (σ : SysState) (command : String) (confidence : ℚ)
    (now : Nat) : SysState × List Store × Feedback :=
  if confidence < confidenceThreshold ∧ confidence < 1 then (σ, [], .lowConfidence)
  else
    match parseCommand (strOfL (lowerL command.toList)) with
    | some i => dispatch σ i now
    | none => (σ, [], .unrecognized)

/-- The context at process start, seeded from `defaultStates`. -/
def initState : SysState :=
  ⟨defaultStates, [], true, false, false⟩

/-- One step of the event-driven system: a processed utterance (with
all of its scheduled callbacks fired) or the firing of a registered
timer. -/
inductive StepR : SysState → SysState → Prop where
  | cmd (σ : SysState) (command : String) (confidence : ℚ) (now : Nat) :
      StepR σ (processCommand σ command confidence now).1
  | fire (σ : SysState) (timerId : String) :
      StepR σ ⟨(fireTimer σ.store σ.timers timerId).1,
               (fireTimer σ.store σ.timers timerId).2.1,
               σ.voiceResponseEnabled, σ.useWhisperBackend, σ.whisperAvailable⟩

/-- Reachability from the initial context. -/
def Reach (σ : SysState) : Prop :=
  Relation.ReflTransGen StepR initState σ

/-! ## Value domains and invariant machinery -/

/-- A value belongs to its device kind's domain: lights an integer in
`[0, 100]`, music one of its three states, security one of its two,
anything else (thermostat included) unconstrained. -/
def valOK (device : String) (v : Value) : Bool :=
  if device = "lights" then
    match v with
    | .num n => decide (0 ≤ n ∧ n ≤ 100)
    | .str _ => false
  else if device = "music" then
    decide (v = .str "playing" ∨ v = .str "paused" ∨ v = .str "stopped")
  else if device = "security" then
    decide (v = .str "armed" ∨ v = .str "disarmed")
  else true

/-- A scene step writes a value inside its device's domain. -/
def stepOK (s : SceneStep) : Bool := valOK s.device s.value

/-- Every stored device value is in its kind's domain. -/
def invStore (st : Store) : Bool :=
  st.all (fun e => e.2.all (fun d => valOK d.1 d.2))

/-- Every registered timer targets `lights` with the `turn off`
action (the only shape the parser ever registers). -/
def timersOK (tms : Timers) : Bool :=
  tms.all (fun e => e.2.device == "lights" && e.2.action == "turn off")

/-- The system invariant. -/
def invSys (σ : SysState) : Bool := invStore σ.store && timersOK σ.timers

/-- Structural facts true of every intent `parseCommand` returns: a
device command carries an in-domain value and, if it addresses
security, the kitchen; a timer command is hard-wired to `lights` and
`turn off`. -/
def IntentOK : Intent → Prop
  | .timer t => t.device = "lights" ∧ t.action = "turn off"
  | .device c => valOK c.device c.value = true ∧ (c.device = "security" → c.room = .str "kitchen")
  | _ => True

/-- Propositional reading of the store invariant: every stored value is
in its device kind's domain. -/
def DomainsOK (st : Store) : Prop :=
  ∀ room devs, (room, devs) ∈ st → ∀ d v, (d, v) ∈ devs →
    (d = "lights" → ∃ n : Int, v = .num n ∧ 0 ≤ n ∧ n ≤ 100) ∧
    (d = "music" → v = .str "playing" ∨ v = .str "paused" ∨ v = .str "stopped") ∧
    (d = "security" → v = .str "armed" ∨ v = .str "disarmed")

/-- All proper truncations (strict initial segments) of the alias-table
keys. -/
def properTruncations : List (List Char) :=
  (roomMap.map (fun e => (List.range e.1.length).map (fun i => e.1.take i))).flatten

/-- A successful association-list lookup is a membership. -/
theorem lookup_mem {κ α : Type} [BEq κ] [LawfulBEq κ] {m : List (κ × α)} {k : κ} {v : α}
    (h : List.lookup k m = some v) : (k, v) ∈ m := by
  induction m with
  | nil => simp [List.lookup] at h
  | cons e rest ih =>
    obtain ⟨k', v'⟩ := e
    rw [List.lookup] at h
    by_cases hk : (k == k') = true
    · simp only [hk] at h
      cases h
      have hkk : k = k' := beq_iff_eq.mp hk
      subst hkk
      exact List.mem_cons_self _ _
    · simp only [Bool.not_eq_true] at hk
      simp only [hk] at h
      exact List.mem_cons_of_mem _ (ih h)

/-- `setKV` preserves a pointwise list predicate that holds of the new
binding. -/
theorem all_setKV {α : Type} (p : String × α → Bool) (m : List (String × α))
    (k : String) (v : α) (hm : m.all p = true) (hv : p (k, v) = true) :
    (setKV m k v).all p = true := by
  induction m with
  | nil => simp [setKV, hv]
  | cons e rest ih =>
    obtain ⟨k', v'⟩ := e
    simp only [List.all_cons, Bool.and_eq_true] at hm
    by_cases h : (k' == k) = true
    · simp [setKV, h, hv, hm.2]
    · simp only [setKV, h, Bool.false_eq_true, if_false, List.all_cons,
        Bool.and_eq_true]
      exact ⟨hm.1, ih hm.2⟩

/-- `setRoomDevice` with an in-domain value preserves the store
invariant. -/
theorem invStore_setRoomDevice (st : Store) (room device : String) (v : Value)
    (hst : invStore st = true) (hv : valOK device v = true) :
    invStore (setRoomDevice st room device v) = true := by
  induction st with
  | nil => simp [setRoomDevice, invStore]
  | cons e rest ih =>
    simp only [invStore, List.all_cons, Bool.and_eq_true] at hst
    simp only [setRoomDevice, List.map_cons, invStore, List.all_cons,
      Bool.and_eq_true]
    constructor
    · by_cases h : (e.1 == room) = true
      · simp only [h, if_pos]
        exact all_setKV _ _ _ _ hst.1 hv
      · simp only [h, Bool.false_eq_true, if_false]
        exact hst.1
    · exact ih hst.2

/-- Applying a list of in-domain scene steps preserves the store
invariant. -/
theorem invStore_applySteps (steps : List SceneStep) : ∀ st : Store,
    invStore st = true → steps.all stepOK = true →
    invStore (applySteps st steps) = true := by
  induction steps with
  | nil => intro st h _; simpa [applySteps] using h
  | cons s rest ih =>
    intro st h hall
    simp only [List.all_cons, Bool.and_eq_true] at hall
    have h' := invStore_setRoomDevice st s.room s.device s.value h hall.1
    simpa [applySteps] using ih _ h' hall.2

/-- All four built-in scenes only write in-domain values. -/
theorem scenes_ok : loadScenes.all (fun e => e.2.all stepOK) = true := by decide

/-- `executeScene` preserves the store invariant. -/
theorem invStore_executeScene (st : Store) (name : String)
    (hst : invStore st = true) :
    invStore (executeScene st name).finalStore = true := by
  unfold executeScene
  split
  · exact hst
  · rename_i steps hlk
    have hmem := lookup_mem hlk
    have hall := List.all_eq_true.mp scenes_ok _ hmem
    exact invStore_applySteps steps st hst hall

/-- `executeCommand` with an in-domain value preserves the store
invariant: only the own-room branch mutates the store, and it writes an
in-domain value; the prototype-hit and thrown branches leave it
untouched. -/
theorem invStore_executeCommand (st : Store) (c : DeviceCmd)
    (hst : invStore st = true) (hv : valOK c.device c.value = true) :
    invStore (executeCommand st c).store = true := by
  unfold executeCommand
  split
  · exact hst
  · split
    · split
      · exact invStore_setRoomDevice _ _ _ _ hst hv
      · exact hst
    · split
      · split
        · exact hst
        · exact hst
      · exact hst

/-- Filtering the registry preserves `timersOK`. -/
theorem timersOK_removeKV (tms : Timers) (k : String)
    (h : timersOK tms = true) : timersOK (removeKV tms k) = true := by
  unfold timersOK removeKV at *
  rw [List.all_eq_true] at h ⊢
  intro e he
  exact h e (List.mem_of_mem_filter he)

/-! ## What the parser can produce -/

/-- Pattern 1's builder output. -/
theorem mkLights1_ok (m : Caps) : IntentOK (mkLights1 m) := by
  unfold mkLights1 IntentOK
  refine ⟨?_, ?_⟩
  case refine_2 => intro h; simp at h
  dsimp only
  split <;> decide

/-- Pattern 2's builder output. -/
theorem mkLights2_ok (m : Caps) : IntentOK (mkLights2 m) := by
  unfold mkLights2 IntentOK
  refine ⟨?_, ?_⟩
  case refine_2 => intro h; simp at h
  dsimp only
  split <;> decide

/-- The generic lights builder's output. -/
theorem mkLightsGen_ok (m : Caps) : IntentOK (mkLightsGen m) := by
  unfold mkLightsGen IntentOK
  refine ⟨?_, ?_⟩
  case refine_2 => intro h; simp at h
  dsimp only
  split <;> decide

/-- The dim builder's output: the clamp keeps the value in `[0, 100]`. -/
theorem mkDim_ok (m : Caps) : IntentOK (mkDim m) := by
  unfold mkDim IntentOK
  refine ⟨?_, ?_⟩
  case refine_2 => intro h; simp at h
  dsimp only
  unfold valOK
  rw [if_pos rfl]
  rw [decide_eq_true_eq]
  exact ⟨le_min (by norm_num) (le_max_left 0 _), min_le_left _ _⟩

/-- The first thermostat builder's output (no domain constraint). -/
theorem mkThermo1_ok (m : Caps) : IntentOK (mkThermo1 m) := by
  unfold mkThermo1 IntentOK
  refine ⟨?_, ?_⟩
  · rfl
  · intro h; simp at h

/-- The second thermostat builder's output. -/
theorem mkThermo2_ok (m : Caps) : IntentOK (mkThermo2 m) := by
  unfold mkThermo2 IntentOK
  refine ⟨?_, ?_⟩
  · rfl
  · intro h; simp at h

/-- The first music builder's output. -/
theorem mkMusic1_ok (m : Caps) : IntentOK (mkMusic1 m) := by
  unfold mkMusic1 IntentOK
  refine ⟨?_, ?_⟩
  case refine_2 => intro h; simp at h
  dsimp only
  repeat' split
  all_goals decide

/-- The second music builder's output. -/
theorem mkMusic2_ok (m : Caps) : IntentOK (mkMusic2 m) := by
  unfold mkMusic2 IntentOK
  refine ⟨?_, ?_⟩
  case refine_2 => intro h; simp at h
  dsimp only
  repeat' split
  all_goals decide

/-- The security builder's output: value in domain, room `kitchen`. -/
theorem mkSecurity_ok (m : Caps) : IntentOK (mkSecurity m) := by
  unfold mkSecurity IntentOK
  refine ⟨?_, fun _ => rfl⟩
  dsimp only
  split <;> decide

/-- Every builder in the pattern table satisfies `IntentOK`. -/
theorem builders_ok : ∀ p ∈ patterns, ∀ m : Caps, IntentOK (p.2 m) := by
  intro p hp m
  simp only [patterns, List.mem_cons, List.not_mem_nil, or_false] at hp
  rcases hp with h|h|h|h|h|h|h|h|h|h <;> subst h
  · exact mkLights1_ok m
  · exact mkLights2_ok m
  · exact mkLightsGen_ok m
  · exact mkLightsGen_ok m
  · exact mkDim_ok m
  · exact mkThermo1_ok m
  · exact mkThermo2_ok m
  · exact mkMusic1_ok m
  · exact mkMusic2_ok m
  · exact mkSecurity_ok m

/-- The pattern loop only returns builder outputs. -/
theorem runPatterns_ok : ∀ (ps : List (Re × (Caps → Intent))),
    (∀ p ∈ ps, ∀ m : Caps, IntentOK (p.2 m)) →
    ∀ (s : List Char) (i : Intent), runPatterns ps s = some i → IntentOK i := by
  intro ps hps
  induction ps with
  | nil => intro s i h; simp [runPatterns] at h
  | cons p rest ih =>
    intro s i h
    obtain ⟨r, b⟩ := p
    rw [runPatterns] at h
    split at h
    · cases h
      exact hps (r, b) (List.mem_cons_self _ _) _
    · exact ih (fun q hq => hps q (List.mem_cons_of_mem _ hq)) s i h

/-- Every intent `parseCommand` returns satisfies `IntentOK`. -/
theorem parse_ok (s : String) (i : Intent) (h : parseCommand s = some i) :
    IntentOK i := by
  unfold parseCommand at h
  repeat' split at h
  all_goals
    first
      | (cases h; trivial)
      | exact runPatterns_ok patterns builders_ok _ _ h

/-! ## The reachability invariant -/

/-- `handleSettings` never touches the store or the registry. -/
theorem handleSettings_frame (σ : SysState) (a : String) :
    (handleSettings σ a).store = σ.store ∧ (handleSettings σ a).timers = σ.timers := by
  unfold handleSettings
  repeat' split
  all_goals exact ⟨rfl, rfl⟩

/-- Dispatching an `IntentOK` intent preserves the system invariant. -/
theorem dispatch_inv (σ : SysState) (i : Intent) (now : Nat)
    (hσ : invSys σ = true) (hi : IntentOK i) :
    invSys (dispatch σ i now).1 = true := by
  unfold invSys at hσ
  rw [Bool.and_eq_true] at hσ
  cases i with
  | help =>
    unfold dispatch invSys
    rw [Bool.and_eq_true]
    exact hσ
  | scene name =>
    unfold dispatch invSys
    rw [Bool.and_eq_true]
    exact ⟨invStore_executeScene σ.store name hσ.1, hσ.2⟩
  | timer t =>
    obtain ⟨hd, ha⟩ := hi
    unfold dispatch setTimer invSys
    rw [Bool.and_eq_true]
    refine ⟨hσ.1, ?_⟩
    apply all_setKV _ _ _ _ hσ.2
    show (t.device == "lights" && t.action == "turn off") = true
    rw [hd, ha]
    decide
  | settings a =>
    unfold dispatch invSys
    rw [Bool.and_eq_true]
    rw [(handleSettings_frame σ a).1, (handleSettings_frame σ a).2]
    exact hσ
  | device c =>
    obtain ⟨hv, _⟩ := hi
    unfold dispatch invSys
    rw [Bool.and_eq_true]
    exact ⟨invStore_executeCommand σ.store c hσ.1 hv, hσ.2⟩

/-- `processCommand` preserves the system invariant. -/
theorem processCommand_inv (σ : SysState) (command : String) (confidence : ℚ)
    (now : Nat) (hσ : invSys σ = true) :
    invSys (processCommand σ command confidence now).1 = true := by
  unfold processCommand
  split
  · exact hσ
  · split
    · rename_i i hi
      exact dispatch_inv σ i now hσ (parse_ok _ i hi)
    · exact hσ

/-- A timer firing preserves the system invariant. -/
theorem fire_inv (σ : SysState) (timerId : String) (hσ : invSys σ = true) :
    invSys ⟨(fireTimer σ.store σ.timers timerId).1,
            (fireTimer σ.store σ.timers timerId).2.1,
            σ.voiceResponseEnabled, σ.useWhisperBackend, σ.whisperAvailable⟩ = true := by
  unfold invSys at hσ ⊢
  rw [Bool.and_eq_true] at hσ ⊢
  unfold fireTimer
  split
  · exact hσ
  · rename_i t hlk
    have hmem := lookup_mem hlk
    have ht := List.all_eq_true.mp hσ.2 _ hmem
    rw [Bool.and_eq_true, beq_iff_eq, beq_iff_eq] at ht
    constructor
    · apply invStore_setRoomDevice _ _ _ _ hσ.1
      have : (if t.action == "turn off" then Value.num 0 else Value.str "stopped")
          = Value.num 0 := by
        rw [if_pos (beq_iff_eq.mpr ht.2)]
      rw [this, ht.1]
      decide
    · exact timersOK_removeKV _ _ hσ.2

/-- The invariant holds of every reachable context. -/
theorem reach_inv (σ : SysState) (h : Reach σ) : invSys σ = true := by
  induction h with
  | refl => decide
  | tail _ hstep ih =>
    cases hstep with
    | cmd command confidence now => exact processCommand_inv _ command confidence now ih
    | fire timerId => exact fire_inv _ timerId ih

/-! ## Lookup lemmas for the store -/

/-- Lookup after a `setKV` write. -/
theorem lookup_setKV {α : Type} (m : List (String × α)) (k : String) (v : α)
    (k' : String) :
    List.lookup k' (setKV m k v) = if k' = k then some v else List.lookup k' m := by
  induction m with
  | nil =>
    by_cases h : k' = k
    · subst h; simp [setKV, List.lookup]
    · rw [if_neg h]
      show List.lookup k' [(k, v)] = List.lookup k' []
      simp [List.lookup, beq_false_of_ne h]
  | cons e rest ih =>
    obtain ⟨k0, v0⟩ := e
    by_cases h0 : (k0 == k) = true
    · have hk0 : k0 = k := beq_iff_eq.mp h0
      subst hk0
      simp only [setKV, h0, if_true]
      by_cases h1 : k' = k0
      · subst h1; simp [List.lookup]
      · rw [if_neg h1]
        rw [List.lookup, beq_false_of_ne h1, List.lookup, beq_false_of_ne h1]
    · simp only [setKV, h0, Bool.false_eq_true, if_false]
      rw [List.lookup, List.lookup]
      by_cases h1 : (k' == k0) = true
      · rw [h1]
        have hne : ¬ k' = k := by
          intro he
          subst he
          exact h0 (by rw [beq_iff_eq] at h1 ⊢; exact h1.symm)
        rw [if_neg hne]
      · simp only [Bool.not_eq_true] at h1
        rw [h1]
        exact ih

/-- Lookup after a `setRoomDevice` write. -/
theorem lookup_setRoomDevice (st : Store) (room device : String) (v : Value)
    (room' : String) :
    List.lookup room' (setRoomDevice st room device v)
      = if room' = room
        then Option.map (fun rs => setKV rs device v) (List.lookup room' st)
        else List.lookup room' st := by
  induction st with
  | nil =>
    by_cases h : room' = room <;> simp [setRoomDevice, List.lookup, h]
  | cons e rest ih =>
    obtain ⟨r0, rs0⟩ := e
    simp only [setRoomDevice, List.map_cons] at ih ⊢
    by_cases h0 : (r0 == room) = true
    · have hr0 : r0 = room := beq_iff_eq.mp h0
      subst hr0
      rw [if_pos h0]
      by_cases h1 : room' = r0
      · subst h1
        rw [if_pos rfl, List.lookup, List.lookup]
        simp [List.lookup]
      · rw [if_neg h1, List.lookup, beq_false_of_ne h1, List.lookup,
          beq_false_of_ne h1]
        simpa [setRoomDevice, if_neg h1] using ih
    · simp only [h0, Bool.false_eq_true, if_false]
      rw [List.lookup, List.lookup]
      by_cases h1 : (room' == r0) = true
      · have h1' : room' = r0 := beq_iff_eq.mp h1
        have hne : ¬ room' = room := by
          intro he
          exact h0 (by rw [beq_iff_eq, ← h1']; exact he)
        rw [h1, if_neg hne]
      · simp only [Bool.not_eq_true] at h1
        rw [h1]
        exact ih

/-- Room presence is unchanged by `setRoomDevice`. -/
theorem isSome_lookup_setRoomDevice (st : Store) (room device : String)
    (v : Value) (room' : String) :
    (List.lookup room' (setRoomDevice st room device v)).isSome
      = (List.lookup room' st).isSome := by
  rw [lookup_setRoomDevice]
  by_cases h : room' = room
  · rw [if_pos h]
    cases List.lookup room' st <;> rfl
  · rw [if_neg h]

/-- Reading back the device just written. -/
theorem getRoomDevice_set_self (st : Store) (room device : String) (v : Value)
    (h : (List.lookup room st).isSome = true) :
    getRoomDevice (setRoomDevice st room device v) room device = some v := by
  unfold getRoomDevice
  rw [lookup_setRoomDevice, if_pos rfl]
  obtain ⟨rs, hrs⟩ := Option.isSome_iff_exists.mp h
  rw [hrs]
  show List.lookup device (setKV rs device v) = some v
  rw [lookup_setKV, if_pos rfl]

/-- Reading a different room after a `setRoomDevice` write. -/
theorem getRoomDevice_set_other_room (st : Store) (room device : String)
    (v : Value) (room' device' : String) (h : room' ≠ room) :
    getRoomDevice (setRoomDevice st room device v) room' device'
      = getRoomDevice st room' device' := by
  unfold getRoomDevice
  rw [lookup_setRoomDevice, if_neg h]

/-- Reading a different device of the written room. -/
theorem getRoomDevice_set_other_device (st : Store) (room device : String)
    (v : Value) (device' : String) (h : device' ≠ device) :
    getRoomDevice (setRoomDevice st room device v) room device'
      = getRoomDevice st room device' := by
  unfold getRoomDevice
  rw [lookup_setRoomDevice, if_pos rfl]
  cases List.lookup room st with
  | none => rfl
  | some rs =>
    show List.lookup device' (setKV rs device v) = List.lookup device' rs
    rw [lookup_setKV, if_neg h]

/-! ## The claims -/

/-- Bridge from the Bool domain check to its propositional reading. -/
theorem valOK_spec (d : String) (v : Value) (h : valOK d v = true) :
    (d = "lights" → ∃ n : Int, v = .num n ∧ 0 ≤ n ∧ n ≤ 100) ∧
    (d = "music" → v = .str "playing" ∨ v = .str "paused" ∨ v = .str "stopped") ∧
    (d = "security" → v = .str "armed" ∨ v = .str "disarmed") := by
  refine ⟨?_, ?_, ?_⟩ <;> intro hd <;> subst hd <;> unfold valOK at h
  · rw [if_pos rfl] at h
    cases v with
    | num n =>
      obtain ⟨h1, h2⟩ := of_decide_eq_true h
      exact ⟨n, rfl, h1, h2⟩
    | str s => simp at h
  · rw [if_neg (by decide), if_pos rfl] at h
    exact of_decide_eq_true h
  · rw [if_neg (by decide), if_neg (by decide), if_pos rfl] at h
    exact of_decide_eq_true h

/-- C1: in every reachable state of the device store — after any
sequence of parsed-command executions (which include scene executions
and timer registrations) and timer firings — each device's value lies
in its kind's domain: `lights` an integer in `[0, 100]`, `music` one of
playing/paused/stopped, `security` one of armed/disarmed. -/
theorem C1_reachable_domains (σ : SysState) (h : Reach σ) : DomainsOK σ.store := by
  have hinv := reach_inv σ h
  unfold invSys at hinv
  rw [Bool.and_eq_true] at hinv
  intro room devs hmem d v hdv
  have h1 := List.all_eq_true.mp hinv.1 _ hmem
  have h2 := List.all_eq_true.mp h1 _ hdv
  exact valOK_spec d v h2

/-- Witness for C1: the reachability hypothesis discharged at the
initial context itself. -/
theorem C1_reachable_domains_witness : DomainsOK defaultStates :=
  C1_reachable_domains initState Relation.ReflTransGen.refl

/-- C9: every timer intent the parser produces has `device = lights`,
whatever the utterance, its room phrase, or its verb. -/
theorem C9_timer_device_is_lights (s : String) (t : TimerCmd)
    (h : parseCommand s = some (.timer t)) : t.device = "lights" :=
  (parse_ok s (.timer t) h).1

/-- Witness for C9: the claim's own example, a `stop music` phrase that
still yields a lights timer. -/
theorem C9_timer_device_is_lights_witness :
    parseCommand "stop music in living room in 1 hour"
      = some (.timer ⟨"lights", .str "living-room", "turn off", 1, "hour"⟩)
    ∧ (⟨"lights", .str "living-room", "turn off", 1, "hour"⟩ : TimerCmd).device
      = "lights" :=
  ⟨by decide, C9_timer_device_is_lights "stop music in living room in 1 hour" _ (by decide)⟩

/-- C10: every security intent the parser produces has
`room = kitchen`, whatever room the utterance mentions. -/
theorem C10_security_room_is_kitchen (s : String) (c : DeviceCmd)
    (h : parseCommand s = some (.device c)) (hd : c.device = "security") :
    c.room = .str "kitchen" :=
  (parse_ok s (.device c) h).2 hd

/-- Witness for C10: `disarm security in the bedroom` still targets the
kitchen. -/
theorem C10_security_room_is_kitchen_witness :
    parseCommand "disarm security in the bedroom"
      = some (.device ⟨"security", .str "kitchen", "disarm", .str "disarmed"⟩)
    ∧ (⟨"security", .str "kitchen", "disarm", .str "disarmed"⟩ : DeviceCmd).room
      = .str "kitchen" :=
  ⟨by decide,
   C10_security_room_is_kitchen "disarm security in the bedroom" _ (by decide) rfl⟩

/-- No dispatch path emits the low-confidence feedback. -/
theorem dispatch_not_lowConfidence (σ : SysState) (i : Intent) (now : Nat) :
    ¬ (dispatch σ i now).2.2 = .lowConfidence := by
  intro h
  cases i <;> unfold dispatch at h <;> dsimp only at h
  case help => exact Feedback.noConfusion h
  case scene name => split at h <;> exact Feedback.noConfusion h
  case timer t => exact Feedback.noConfusion h
  case settings a => exact Feedback.noConfusion h
  case device c =>
    unfold executeCommand at h
    split at h
    · exact Feedback.noConfusion h
    · split at h
      · split at h <;> exact Feedback.noConfusion h
      · split at h
        · split at h <;> exact Feedback.noConfusion h
        · exact Feedback.noConfusion h

/-- C2: `processCommand` rejects before parsing — emitting the
`repeat please` feedback and leaving the whole context, and hence every
device value, untouched, with nothing persisted — exactly when the
reported confidence is below the 0.7 threshold and below the sentinel
1; in particular confidence 1 is never rejected on this basis. -/
theorem C2_confidence_gate (σ : SysState) (command : String) (confidence : ℚ)
    (now : Nat) :
    ((processCommand σ command confidence now).2.2 = .lowConfidence
      ↔ (confidence < 7 / 10 ∧ confidence < 1))
    ∧ (confidence < 7 / 10 ∧ confidence < 1 →
        (processCommand σ command confidence now).1 = σ
        ∧ (processCommand σ command confidence now).2.1 = []) := by
  unfold processCommand confidenceThreshold
  by_cases hc : confidence < 7 / 10 ∧ confidence < 1
  · rw [if_pos hc]
    exact ⟨⟨fun _ => hc, fun _ => rfl⟩, fun _ => ⟨rfl, rfl⟩⟩
  · rw [if_neg hc]
    refine ⟨⟨?_, fun hcc => absurd hcc hc⟩, fun hcc => absurd hcc hc⟩
    intro h
    exfalso
    split at h
    · exact dispatch_not_lowConfidence σ _ now h
    · exact Feedback.noConfusion h

/-- Witness for C2: confidence 0.4 (reported, below threshold) is
rejected with the low-confidence feedback and no state change. -/
theorem C2_confidence_gate_witness :
    ((2 : ℚ) / 5 < 7 / 10 ∧ (2 : ℚ) / 5 < 1)
    ∧ (processCommand initState "turn on the lights" (2 / 5) 0).2.2
      = .lowConfidence
    ∧ (processCommand initState "turn on the lights" (2 / 5) 0).1 = initState := by
  have h : (2 : ℚ) / 5 < 7 / 10 ∧ (2 : ℚ) / 5 < 1 := by norm_num
  exact ⟨h,
    (C2_confidence_gate initState "turn on the lights" (2 / 5) 0).1.mpr h,
    ((C2_confidence_gate initState "turn on the lights" (2 / 5) 0).2 h).1⟩

/-- C5: a timer's firing delay is `duration * 3600000` ms exactly when
the unit string contains `hour` and `duration * 60000` ms otherwise;
scheduling lights/living-room/`turn off` for 10 minutes yields a
600,000 ms delay, and its firing sets living-room lights to 0 and
removes the timer from the active registry. -/
theorem C5_timer_delay_and_fire :
    (∀ (now : Nat) (tms : Timers) (t : TimerCmd),
      (setTimer now tms t).delayMs
        = if includesJS t.unit "hour" then t.duration * 3600000
          else t.duration * 60000)
    ∧ (setTimer 0 [] ⟨"lights", .str "living-room", "turn off", 10, "minutes"⟩).delayMs
      = 600000
    ∧ getRoomDevice
        (fireTimer defaultStates
          (setTimer 0 [] ⟨"lights", .str "living-room", "turn off", 10, "minutes"⟩).timers
          (setTimer 0 [] ⟨"lights", .str "living-room", "turn off", 10, "minutes"⟩).timerId).1
        "living-room" "lights" = some (.num 0)
    ∧ List.lookup
        (setTimer 0 [] ⟨"lights", .str "living-room", "turn off", 10, "minutes"⟩).timerId
        (fireTimer defaultStates
          (setTimer 0 [] ⟨"lights", .str "living-room", "turn off", 10, "minutes"⟩).timers
          (setTimer 0 [] ⟨"lights", .str "living-room", "turn off", 10, "minutes"⟩).timerId).2.1
      = none :=
  ⟨fun _ _ _ => rfl, by decide, by decide, by decide⟩

/-- C3 counterexample: running the `goodnight` scene from the default
store changes the store (kitchen security becomes armed), yet the only
snapshot handed to the persistence collaborator is the pre-scene store
— the scene steps' mutations are never persisted, refuting the claim
that every mutation is followed by a synchronous persist. -/
theorem C3_counterexample_scene_save :
    (executeScene defaultStates "goodnight").finalStore
        ∉ (executeScene defaultStates "goodnight").saves
    ∧ (executeScene defaultStates "goodnight").finalStore ≠ defaultStates
    ∧ (executeScene defaultStates "goodnight").saves = [defaultStates] := by
  decide

/-- C3 amended: a direct device command and a timer firing persist the
post-mutation snapshot synchronously with the mutation; scene execution
persists exactly one snapshot, taken before any step has mutated the
store, so the steps' mutations are not followed by a persist. -/
theorem C3_amended_persistence :
    (∀ (st : Store) (c : DeviceCmd) (room : String) (rs : RoomDevs),
      c.room = .str room →
      List.lookup room st = some rs →
      (List.lookup c.device rs).isSome = true →
      (executeCommand st c).saves = [(executeCommand st c).store]
      ∧ (executeCommand st c).store = setRoomDevice st room c.device c.value)
    ∧ (∀ (st : Store) (tms : Timers) (timerId : String) (t : TimerEntry),
      List.lookup timerId tms = some t →
      (fireTimer st tms timerId).2.2 = [(fireTimer st tms timerId).1])
    ∧ (∀ (st : Store) (name : String) (steps : List SceneStep),
      List.lookup name loadScenes = some steps →
      (executeScene st name).saves = [st]
      ∧ (executeScene st name).finalStore = applySteps st steps) := by
  refine ⟨?_, ?_, ?_⟩
  · intro st c room rs hc h hd
    unfold executeCommand
    simp only [hc, h, hd, if_pos]
    exact ⟨trivial, trivial⟩
  · intro st tms timerId t h
    unfold fireTimer
    simp only [h]
  · intro st name steps h
    unfold executeScene
    simp only [h]
    exact ⟨trivial, trivial⟩

/-- Witness for the amended C3: a valid device command persists its
post-mutation store; the goodnight scene persists only the pre-scene
default store. -/
theorem C3_amended_persistence_witness :
    (executeCommand defaultStates ⟨"lights", .str "bedroom", "on", .num 100⟩).saves
      = [(executeCommand defaultStates ⟨"lights", .str "bedroom", "on", .num 100⟩).store]
    ∧ (executeScene defaultStates "goodnight").saves = [defaultStates] :=
  ⟨(C3_amended_persistence.1 defaultStates _ "bedroom"
      [("lights", .num 0), ("thermostat", .num 70), ("music", .str "stopped")]
      rfl (by decide) (by decide)).1,
   (C3_amended_persistence.2.2 defaultStates "goodnight"
      [⟨"living-room", "lights", .num 0⟩, ⟨"bedroom", "lights", .num 0⟩,
       ⟨"kitchen", "lights", .num 0⟩, ⟨"kitchen", "security", .str "armed"⟩]
      (by decide)).1⟩

/-- C8: the goodnight scene schedules its four steps in declared order
at `500 ms × index`, fires the confirmation at `500 ms × 4` (after the
last step's 1500 ms delay), and once all steps have fired the store has
lights 0 in all three rooms and kitchen security armed. -/
theorem C8_goodnight_scene (st : Store)
    (h1 : (List.lookup "living-room" st).isSome = true)
    (h2 : (List.lookup "bedroom" st).isSome = true)
    (h3 : (List.lookup "kitchen" st).isSome = true) :
    (executeScene st "goodnight").known = true
    ∧ (executeScene st "goodnight").stepEvents
      = [(0, ⟨"living-room", "lights", .num 0⟩),
         (500, ⟨"bedroom", "lights", .num 0⟩),
         (1000, ⟨"kitchen", "lights", .num 0⟩),
         (1500, ⟨"kitchen", "security", .str "armed"⟩)]
    ∧ (executeScene st "goodnight").confirmDelay = some 2000
    ∧ getRoomDevice (executeScene st "goodnight").finalStore
        "living-room" "lights" = some (.num 0)
    ∧ getRoomDevice (executeScene st "goodnight").finalStore
        "bedroom" "lights" = some (.num 0)
    ∧ getRoomDevice (executeScene st "goodnight").finalStore
        "kitchen" "lights" = some (.num 0)
    ∧ getRoomDevice (executeScene st "goodnight").finalStore
        "kitchen" "security" = some (.str "armed") := by
  have hred : (executeScene st "goodnight").finalStore
      = setRoomDevice (setRoomDevice (setRoomDevice
          (setRoomDevice st "living-room" "lights" (.num 0))
          "bedroom" "lights" (.num 0))
          "kitchen" "lights" (.num 0))
          "kitchen" "security" (.str "armed") := rfl
  refine ⟨rfl, rfl, rfl, ?_, ?_, ?_, ?_⟩
  · rw [hred,
      getRoomDevice_set_other_room _ _ _ _ _ _ (by decide),
      getRoomDevice_set_other_room _ _ _ _ _ _ (by decide),
      getRoomDevice_set_other_room _ _ _ _ _ _ (by decide)]
    exact getRoomDevice_set_self st _ _ _ h1
  · rw [hred,
      getRoomDevice_set_other_room _ _ _ _ _ _ (by decide),
      getRoomDevice_set_other_room _ _ _ _ _ _ (by decide)]
    apply getRoomDevice_set_self
    rw [isSome_lookup_setRoomDevice]
    exact h2
  · rw [hred, getRoomDevice_set_other_device _ _ _ _ _ (by decide)]
    apply getRoomDevice_set_self
    rw [isSome_lookup_setRoomDevice, isSome_lookup_setRoomDevice]
    exact h3
  · rw [hred]
    apply getRoomDevice_set_self
    rw [isSome_lookup_setRoomDevice, isSome_lookup_setRoomDevice,
      isSome_lookup_setRoomDevice]
    exact h3

/-- Witness for C8: the hypotheses discharged at the default store. -/
theorem C8_goodnight_scene_witness :
    (List.lookup "living-room" defaultStates).isSome = true
    ∧ (List.lookup "bedroom" defaultStates).isSome = true
    ∧ (List.lookup "kitchen" defaultStates).isSome = true
    ∧ getRoomDevice (executeScene defaultStates "goodnight").finalStore
        "kitchen" "security" = some (.str "armed") :=
  ⟨by decide, by decide, by decide,
   (C8_goodnight_scene defaultStates (by decide) (by decide)
     (by decide)).2.2.2.2.2.2⟩

/-- Each table value is one of the three canonical room ids. -/
theorem roomMap_values_canonical :
    roomMap.all (fun e =>
      e.2 == "living-room" || e.2 == "bedroom" || e.2 == "kitchen") = true := by
  decide

/-- The normalizer maps every table alias to its canonical id. -/
theorem roomMap_aliases_exact :
    roomMap.all (fun e => normalizeRoom e.1 == RoomVal.str e.2) = true := by decide

/-- C6 counterexample: the input `constructor` — which exactly matches
no table key and stands in no prefix relation with any key — does not
fall back to `living-room` and is not mapped to any canonical room id:
the JS object read `roomMap[normalized]` hits the inherited, truthy
`Object` constructor on the prototype chain, which skips the scan and
the fallback and is returned as-is, refuting the claimed totality. -/
theorem C6_counterexample_proto_input :
    normalizeRoom "constructor".toList
      = .obj "function Object() \x7b [native code] \x7d"
    ∧ normalizeRoom "constructor".toList ≠ .str "living-room"
    ∧ normalizeRoom "constructor".toList ≠ .str "bedroom"
    ∧ normalizeRoom "constructor".toList ≠ .str "kitchen" := by
  decide

/-- C6 amended: for every input whose trimmed lower-cased form is not
one of the two inherited prototype property names (`constructor`,
`__proto__`), `normalize` returns an id in the three canonical rooms;
every alias of the static table resolves exactly to its canonical id;
and such an input that neither equals nor stands in a one-sided
run-initial relation with any table key falls back to `living-room`.
On the two prototype-named inputs the source instead returns the
inherited non-room object (see the counterexample). -/
theorem C6_normalize_total :
    (∀ s : List Char, protoRead (strOfL (trimL (lowerL s))) = none →
      normalizeRoom s = .str "living-room" ∨ normalizeRoom s = .str "bedroom"
        ∨ normalizeRoom s = .str "kitchen")
    ∧ (∀ key canon, (key, canon) ∈ roomMap → normalizeRoom key = .str canon)
    ∧ (∀ s : List Char, protoRead (strOfL (trimL (lowerL s))) = none →
        (∀ e ∈ roomMap, trimL (lowerL s) ≠ e.1
          ∧ (trimL (lowerL s)).isPrefixOf e.1 = false
          ∧ (e.1).isPrefixOf (trimL (lowerL s)) = false) →
        normalizeRoom s = .str "living-room") := by
  refine ⟨?_, ?_, ?_⟩
  · intro s hproto
    unfold normalizeRoom
    split
    · exact Or.inl rfl
    · unfold normCore
      split
      · rename_i v hlk
        have hmem := lookup_mem hlk
        have hv := List.all_eq_true.mp roomMap_values_canonical _ hmem
        simp only [Bool.or_eq_true, beq_iff_eq] at hv
        rcases hv with (h | h) | h
        · exact Or.inl (by rw [h])
        · exact Or.inr (Or.inl (by rw [h]))
        · exact Or.inr (Or.inr (by rw [h]))
      · split
        · rename_i tag htag
          rw [hproto] at htag
          exact Option.noConfusion htag
        · split
          · rename_i e hfr
            have hmem := List.mem_of_find?_eq_some hfr
            have hv := List.all_eq_true.mp roomMap_values_canonical _ hmem
            simp only [Bool.or_eq_true, beq_iff_eq] at hv
            rcases hv with (h | h) | h
            · exact Or.inl (by rw [h])
            · exact Or.inr (Or.inl (by rw [h]))
            · exact Or.inr (Or.inr (by rw [h]))
          · exact Or.inl rfl
  · intro key canon hmem
    exact beq_iff_eq.mp (List.all_eq_true.mp roomMap_aliases_exact _ hmem)
  · intro s hproto hyp
    unfold normalizeRoom
    split
    · rfl
    · have hlk : List.lookup (trimL (lowerL s)) roomMap = none := by
        cases hl : List.lookup (trimL (lowerL s)) roomMap with
        | none => rfl
        | some v => exact absurd rfl (hyp _ (lookup_mem hl)).1
      have hfr : findRelated (trimL (lowerL s)) = none := by
        unfold findRelated
        cases hf : roomMap.find? (fun e =>
            (trimL (lowerL s)).isPrefixOf e.1
              || e.1.isPrefixOf (trimL (lowerL s))) with
        | none => rfl
        | some e =>
          have hm := List.mem_of_find?_eq_some hf
          have hp := List.find?_some hf
          rw [Bool.or_eq_true] at hp
          rcases hp with hp | hp
          · rw [(hyp e hm).2.1] at hp
            exact Bool.noConfusion hp
          · rw [(hyp e hm).2.2] at hp
            exact Bool.noConfusion hp
      unfold normCore
      simp only [hlk, hproto, hfr]

/-- Witness for the amended C6: an alias resolves to its canonical id;
an unrelated, non-prototype-named word falls back to the default
room. -/
theorem C6_normalize_total_witness :
    normalizeRoom "lounge".toList = .str "living-room"
    ∧ normalizeRoom "garage".toList = .str "living-room" :=
  ⟨C6_normalize_total.2.1 "lounge".toList "living-room" (by decide),
   C6_normalize_total.2.2 "garage".toList (by decide) (by decide)⟩

/-- A successful Bool run-initial test means the shorter list is a
`take` of the longer. -/
theorem eq_take_of_isPrefixOf :
    ∀ (t k : List Char), t.isPrefixOf k = true →
      t = k.take t.length ∧ t.length ≤ k.length
  | [], _, _ => ⟨rfl, Nat.zero_le _⟩
  | a :: t', [], h => by simp [List.isPrefixOf] at h
  | a :: t', b :: k', h => by
    rw [List.isPrefixOf, Bool.and_eq_true] at h
    obtain ⟨ih1, ih2⟩ := eq_take_of_isPrefixOf t' k' h.2
    refine ⟨?_, Nat.succ_le_succ ih2⟩
    have hab : a = b := beq_iff_eq.mp h.1
    subst hab
    simp only [List.length_cons, List.take_succ_cons]
    rw [← ih1]

/-- Any proper truncation of a table key is in the truncation list. -/
theorem mem_properTruncations (t k : List Char) (canon : String)
    (hmem : (k, canon) ∈ roomMap) (hpre : t.isPrefixOf k = true)
    (hne : t ≠ k) : t ∈ properTruncations := by
  obtain ⟨ht, hlen⟩ := eq_take_of_isPrefixOf t k hpre
  have hlt : t.length < k.length := by
    cases Nat.lt_or_ge t.length k.length with
    | inl h => exact h
    | inr h =>
      have heq : t.length = k.length := Nat.le_antisymm hlen h
      exact absurd (by rw [ht, heq, List.take_length]) hne
  apply List.mem_flatten.mpr
  refine ⟨(List.range k.length).map (fun i => k.take i), ?_, ?_⟩
  · apply List.mem_map.mpr
    exact ⟨(k, canon), hmem, rfl⟩
  · apply List.mem_map.mpr
    exact ⟨t.length, List.mem_range.mpr hlt, ht.symm⟩

/-- Finite check: on every proper truncation of a table key, the
normalizer core returns the canonical room of the first related table
entry. -/
theorem truncations_check :
    properTruncations.all (fun t =>
      match findRelated t with
      | some e => normCore t == RoomVal.str e.2
      | none => false) = true := by decide

/-- C7: for any input whose trimmed lower-cased form is a proper
truncation of a known alias, the partial-match scan finds a first
related table entry — one whose key extends the input or is an initial
run of it, taken in table-declaration order — and normalization
resolves to that entry's canonical room. -/
theorem C7_truncation_resolution (s : List Char) (k : List Char) (canon : String)
    (hmem : (k, canon) ∈ roomMap)
    (hpre : (trimL (lowerL s)).isPrefixOf k = true)
    (hne : trimL (lowerL s) ≠ k) :
    ∃ e, findRelated (trimL (lowerL s)) = some e
      ∧ ((trimL (lowerL s)).isPrefixOf e.1
          || e.1.isPrefixOf (trimL (lowerL s))) = true
      ∧ normalizeRoom s = .str e.2 := by
  have htm : trimL (lowerL s) ∈ properTruncations :=
    mem_properTruncations _ k canon hmem hpre hne
  have hchk := List.all_eq_true.mp truncations_check _ htm
  cases hfr : findRelated (trimL (lowerL s)) with
  | none =>
    rw [hfr] at hchk
    exact Bool.noConfusion hchk
  | some e =>
    rw [hfr] at hchk
    have hval : normCore (trimL (lowerL s)) = .str e.2 := beq_iff_eq.mp hchk
    have hfr' : roomMap.find? (fun x =>
        (trimL (lowerL s)).isPrefixOf x.1
          || x.1.isPrefixOf (trimL (lowerL s))) = some e := hfr
    have hrel := List.find?_some hfr'
    refine ⟨e, rfl, hrel, ?_⟩
    unfold normalizeRoom
    split
    · rename_i hs
      have hsempty : s = [] := by
        cases s with
        | nil => rfl
        | cons a t => exact Bool.noConfusion hs
      subst hsempty
      rw [← hval]
      decide
    · exact hval

/-- Witness for C7: `kitc`, a proper truncation of `kitchen`, resolves
through the first related entry to the kitchen. -/
theorem C7_truncation_resolution_witness :
    ("kitchen".toList, "kitchen") ∈ roomMap
    ∧ ∃ e, findRelated (trimL (lowerL "kitc".toList)) = some e
      ∧ ((trimL (lowerL "kitc".toList)).isPrefixOf e.1
          || e.1.isPrefixOf (trimL (lowerL "kitc".toList))) = true
      ∧ normalizeRoom "kitc".toList = .str e.2 :=
  ⟨by decide,
   C7_truncation_resolution "kitc".toList "kitchen".toList "kitchen"
     (by decide) (by decide) (by decide)⟩

end VoiceDetect
